import Mathlib

/-!
Verification of the snake game repository against its specification.

The development shallowly embeds the two subsystems the spec covers:

* the simulation engine of `src/game.js` (modules `Snake`, `Food`, `Input`,
  `Game`): grid coordinates become `Int` pairs, the mutable `gameState`
  object becomes the structure `GameState`, and each JS method becomes a
  pure state-transforming function.  The outcome of a food relocation
  (`Food.generate`, driven by `Math.random`) is passed to the tick function
  as an explicit oracle argument `newFood`; the relocation retry loop itself
  is modelled separately (`Food.generateAux`) over an explicit stream of
  random values with fuel, since the do-while loop has no a-priori bound.
* the serverless functions (`submit-score` and `get-leaderboard` handlers):
  `checkRateLimit` over an explicit map from addresses to window entries,
  `validateScore` over a submission record whose fields model the dynamic
  typing of JSON input (`none` = the field is absent or not a number /
  not a string / not an object), and the leaderboard read-modify-write
  cycle.  JavaScript `Array.prototype.sort` is required by the language
  specification to be stable, so it is modelled by the stable
  `List.mergeSort`.  `Date.now()` becomes an explicit `now` argument and
  the generated UUID an explicit `id` argument.
-/

namespace SnakeGame

/-! ## Configuration constants (game.js, CONFIG) -/

def GRID_SIZE : Int := 20

def MIN_SPEED : Int := 50

def POINTS_PER_FOOD : Int := 10

def INITIAL_SNAKE_LENGTH : Nat := 3

structure DifficultySettings where
  foodTimeout : Int
  initialSpeed : Int
  speedIncrement : Int
deriving DecidableEq, Repr

def DIFFICULTY_EASY : DifficultySettings := ⟨7000, 200, 3⟩

def DIFFICULTY_MEDIUM : DifficultySettings := ⟨5000, 150, 5⟩

def DIFFICULTY_HARD : DifficultySettings := ⟨3000, 100, 8⟩

/-! ## Game state (game.js, gameState) -/

structure Pos where
  x : Int
  y : Int
deriving DecidableEq, Repr

/-- The fields of the mutable `gameState` object that the simulation engine
reads or writes.  Rendering, DOM and timer-id bookkeeping fields are out of
scope per the spec.  `difficulty` is `none` before any difficulty has been
selected (JS `null`). -/
structure GameState where
  snake : List Pos
  direction : Pos
  nextDirection : Pos
  food : Pos
  score : Int
  isPlaying : Bool
  speed : Int
  shouldGrow : Bool
  difficulty : Option DifficultySettings
deriving DecidableEq, Repr

/-! ## Snake module (game.js, lines 68-130) -/

namespace Snake

/-- `Snake.initialize` of game.js: centered snake of the configured initial
length facing right.  (The JS method name cannot be used verbatim here.) -/
def init (s : GameState) : GameState :=
  let c : Int := GRID_SIZE / 2
  { s with
    snake := (List.range INITIAL_SNAKE_LENGTH).map (fun i => ⟨c - i, c⟩),
    direction := ⟨1, 0⟩,
    nextDirection := ⟨1, 0⟩,
    shouldGrow := false }

/-- `Snake.move` of game.js: commit the buffered direction, unshift the new
head, and pop the tail unless the grow flag is set (in which case the flag
is cleared instead). -/
def move (s : GameState) : GameState :=
  let dir := s.nextDirection
  let head := s.snake.headD ⟨0, 0⟩
  let newHead : Pos := ⟨head.x + dir.x, head.y + dir.y⟩
  if !s.shouldGrow then
    { s with direction := dir, snake := (newHead :: s.snake).dropLast }
  else
    { s with direction := dir, snake := newHead :: s.snake, shouldGrow := false }

/-- `Snake.checkSelfCollision` of game.js: head against every non-head
segment (loop from index 1). -/
def checkSelfCollision (s : GameState) : Bool :=
  match s.snake with
  | [] => false
  | h :: t => t.any (fun seg => seg.x == h.x && seg.y == h.y)

/-- `Snake.checkWallCollision` of game.js. -/
def checkWallCollision (s : GameState) : Bool :=
  let h := s.snake.headD ⟨0, 0⟩
  decide (h.x < 0) || decide (h.x ≥ GRID_SIZE) || decide (h.y < 0) || decide (h.y ≥ GRID_SIZE)

end Snake

/-! ## Food module (game.js, lines 135-196) -/

namespace Food

/-- One candidate cell from the random stream: game.js computes
`Math.floor(Math.random() * CONFIG.GRID_SIZE)` for each axis, i.e. a value
in `[0, 20)`; the stream entry is reduced modulo 20 accordingly. -/
def randCell (rng : Nat → Nat × Nat) (i : Nat) : Pos :=
  ⟨Int.ofNat ((rng i).1 % 20), Int.ofNat ((rng i).2 % 20)⟩

/-- The do-while retry loop of `Food.generate` in game.js, with the random
source made explicit as a stream of draws and with fuel bounding the number
of attempts (the JS loop has no intrinsic bound): attempt `i` proposes
`randCell rng i` and retries while the proposal lies on the snake. -/
def generateAux (rng : Nat → Nat × Nat) (snake : List Pos) : Nat → Nat → Option Pos
  | 0, _ => none
  | fuel + 1, i =>
    let c := randCell rng i
    if snake.any (fun seg => seg.x == c.x && seg.y == c.y) then
      generateAux rng snake fuel (i + 1)
    else
      some c

/-- `Food.generate` of game.js, starting from the first draw. -/
def generate (rng : Nat → Nat × Nat) (snake : List Pos) (fuel : Nat) : Option Pos :=
  generateAux rng snake fuel 0

/-- The retry loop of `Food.generate` terminates on the random stream `rng`
for the snake configuration `snake`: some amount of fuel suffices. -/
def generateTerminates (rng : Nat → Nat × Nat) (snake : List Pos) : Prop :=
  ∃ fuel, (generate rng snake fuel).isSome

/-- `Food.checkCollision` of game.js: head on food. -/
def checkCollision (s : GameState) : Bool :=
  let h := s.snake.headD ⟨0, 0⟩
  h.x == s.food.x && h.y == s.food.y

end Food

/-! ## Input module (game.js, lines 201-311) -/

namespace Input

/-- `Input.setDirection` of game.js: the request is silently dropped when it
is the exact opposite of the committed direction. -/
def setDirection (newDirection : Pos) (s : GameState) : GameState :=
  let isOpposite :=
    (newDirection.x == -s.direction.x && newDirection.x != 0) ||
    (newDirection.y == -s.direction.y && newDirection.y != 0)
  if isOpposite then s else { s with nextDirection := newDirection }

end Input

/-! ## Game module (game.js, lines 518-706) -/

namespace Game

/-- `Game.gameOver` of game.js, restricted to the modelled state: it stops
play (`isPlaying = false`) and clears the timers; the score submission it
then performs is modelled by the service functions below. -/
def gameOver (s : GameState) : GameState :=
  { s with isPlaying := false }

/-- One iteration of `Game.loop` in game.js: no-op unless playing; move the
snake; on wall or self collision, game over; on food capture, set the grow
flag, add the per-food points, relocate the food (outcome supplied by the
oracle argument `newFood`) and speed up, floored at the minimum.  While
playing, `difficulty` is always a selected object in game.js (play cannot
start without one); the `getD` default covers the unreachable `none` case. -/
def loop (newFood : Pos) (s : GameState) : GameState :=
  if !s.isPlaying then s
  else
    let s1 := Snake.move s
    if Snake.checkWallCollision s1 || Snake.checkSelfCollision s1 then
      gameOver s1
    else if Food.checkCollision s1 then
      { s1 with
        shouldGrow := true,
        score := s1.score + POINTS_PER_FOOD,
        food := newFood,
        speed := max MIN_SPEED (s1.speed - (s1.difficulty.getD DIFFICULTY_MEDIUM).speedIncrement) }
    else s1

/-- `Game.reset` of game.js: clear timers (not modelled), zero the score and
flags, keep the difficulty setting. -/
def reset (s : GameState) : GameState :=
  { s with score := 0, isPlaying := false, shouldGrow := false }

/-- The state `Game.start` has built just before its final `this.loop()`
call: reset, snake re-initialised, food placed (placement outcome supplied
as the oracle `f0`), speed set from the difficulty, play flag raised. -/
def startState (f0 : Pos) (s : GameState) : GameState :=
  let s1 := reset s
  let s2 := Snake.init s1
  { s2 with
    food := f0,
    speed := (s.difficulty.getD DIFFICULTY_MEDIUM).initialSpeed,
    isPlaying := true }

/-- `Game.start` of game.js: requires a selected difficulty, rebuilds the
state and runs the first loop iteration synchronously. -/
def start (f0 newFood : Pos) (s : GameState) : GameState :=
  if s.difficulty.isNone then s else loop newFood (startState f0 s)

end Game

namespace Input

/-- The space-key branch of `Input.setupKeyboard` in game.js: when not
playing, a selected difficulty makes space start (restart) the game
directly; with no difficulty selected nothing happens. -/
def pressSpace (f0 newFood : Pos) (s : GameState) : GameState :=
  if !s.isPlaying then
    if s.difficulty.isSome then Game.start f0 newFood s else s
  else s

end Input

/-! ## Rate limiter (submit-score function, lines 4-23) -/

def RATE_LIMIT_WINDOW : Int := 60000

def RATE_LIMIT_MAX : Nat := 5

structure RateLimitEntry where
  windowStart : Int
  count : Nat
deriving DecidableEq, Repr

/-- The `rateLimitMap` of the submit-score function: per-address window
entries, absent for addresses never seen. -/
def RateLimitMap : Type := String → Option RateLimitEntry

/-- `checkRateLimit` of the submit-score function, returning the admission
verdict together with the updated map: a missing or expired window is
replaced by a fresh one (admit), a full window denies without update,
otherwise the count is incremented (admit). -/
def checkRateLimit (now : Int) (ip : String) (m : RateLimitMap) :
    Bool × RateLimitMap :=
  match m ip with
  | none => (true, fun k => if k = ip then some ⟨now, 1⟩ else m k)
  | some entry =>
    if RATE_LIMIT_WINDOW < now - entry.windowStart then
      (true, fun k => if k = ip then some ⟨now, 1⟩ else m k)
    else if RATE_LIMIT_MAX ≤ entry.count then
      (false, m)
    else
      (true, fun k => if k = ip then some ⟨entry.windowStart, entry.count + 1⟩ else m k)

/-! ## Validator (submit-score function, lines 25-71) -/

/-- The `gameData` member of a submission body.  Each field is `none` when
it is absent or not of the type the corresponding JS `typeof` / membership
check demands (a non-string `difficulty` is never a member of the valid
list, so it is modelled the same way as an unknown string). -/
structure JSGameData where
  difficulty : Option String
  snakeLength : Option Int
  gameTime : Option Int
deriving DecidableEq, Repr

/-- A parsed submission body.  `score`/`timestamp` are `none` when absent or
not numbers; `gameData` is `none` when absent, `null`, or not an object. -/
structure JSSubmission where
  score : Option Int
  timestamp : Option Int
  gameData : Option JSGameData
deriving DecidableEq, Repr

inductive Verdict where
  | valid : Verdict
  | invalid : String → Verdict
deriving DecidableEq, Repr

/-- `validateScore` of the submit-score function.  `Date.now()` is the
explicit argument `now`.  The checks appear in source order; integer
division is exact on every path that reaches it because `score % 10 = 0`
has already been established. -/
def validateScore (now : Int) (data : JSSubmission) : Verdict :=
  match data.score with
  | none => .invalid "Invalid score format"
  | some score =>
    if score % 10 ≠ 0 then .invalid "Invalid score format"
    else if score < 0 ∨ score > 10000 then .invalid "Score out of range"
    else
      match data.timestamp with
      | none => .invalid "Timestamp expired"
      | some ts =>
        if (now - ts).natAbs > 600000 then .invalid "Timestamp expired"
        else
          match data.gameData with
          | none => .invalid "Missing game data"
          | some gd =>
            if ¬ (gd.difficulty = some "EASY" ∨ gd.difficulty = some "MEDIUM" ∨
                  gd.difficulty = some "HARD") then .invalid "Invalid difficulty"
            else
              match gd.snakeLength with
              | none => .invalid "Invalid game data"
              | some len =>
                if (len - (score / 10 + 3)).natAbs > 2 then .invalid "Invalid game data"
                else
                  match gd.gameTime with
                  | none => .invalid "Invalid game time"
                  | some gt =>
                    if gt < (score / 10) * 500 then .invalid "Invalid game time"
                    else .valid

/-! ## Leaderboard store and ranking (both serverless functions) -/

/-- A stored leaderboard entry (submit-score function, lines 145-152).  The
UUID string produced by `generateId` is modelled by a `Nat` identifier. -/
structure Entry where
  id : Nat
  score : Int
  difficulty : String
  snakeLength : Int
  gameTime : Int
  timestamp : Int
deriving DecidableEq, Repr

/-- The comparator of the submit-score function (lines 158-161), as the
total boolean order it realises: `entryLE a b` holds exactly when the
comparator places `a` no later than `b`, i.e. higher score first and, on
equal scores, earlier timestamp first. -/
def entryLE (a b : Entry) : Bool :=
  decide (b.score < a.score) || (a.score == b.score && decide (a.timestamp ≤ b.timestamp))

/-- The persisted leaderboard record `{version, lastUpdated, scores}`. -/
structure Snapshot where
  version : Nat
  lastUpdated : Int
  scores : List Entry
deriving DecidableEq, Repr

/-- Both handlers replace an absent store record by this default
(lines 131-135 of submit-score, 45-49 of get-leaderboard). -/
def defaultSnapshot (now : Int) : Snapshot :=
  ⟨1, now, []⟩

/-- The ranking core of the submit-score handler (lines 154-168): push the
new entry, sort with the stable comparator (ECMAScript `Array.sort` is
stable, hence `List.mergeSort`), keep the top 20, and recover the rank via
`findIndex` on the generated id (`none` models the `null` rank produced
when the entry fell off the list). -/
def submitScoreCore (scores : List Entry) (e : Entry) : List Entry × Option Nat :=
  let sorted := (scores ++ [e]).mergeSort entryLE
  let top := sorted.take 20
  let i := top.findIdx (fun x => x.id == e.id)
  (top, if i < top.length then some (i + 1) else none)

/-- The store read-modify-write of the submit-score handler after
validation: default an absent record, rank the new entry, persist the
trimmed list with a fresh `lastUpdated`. -/
def submitHandlerStore (now : Int) (stored : Option Snapshot) (e : Entry) :
    Snapshot × Option Nat :=
  let ld := stored.getD (defaultSnapshot now)
  let r := submitScoreCore ld.scores e
  (⟨ld.version, now, r.1⟩, r.2)

/-- The body of a get-leaderboard response. -/
structure GetResponse where
  status : Nat
  success : Bool
  scores : List Entry
  lastUpdated : Int
deriving DecidableEq, Repr

/-- The successful path of the get-leaderboard handler: serve the cached
copy while it is fresh, otherwise read the store (the read outcome is the
argument `stored`), defaulting an absent record to the empty version-1
snapshot, and answer 200/success. -/
def getLeaderboard (cachedData : Option Snapshot) (cacheTimestamp now : Int)
    (stored : Option Snapshot) : GetResponse :=
  match cachedData with
  | some c =>
    if now - cacheTimestamp < 5000 then ⟨200, true, c.scores, c.lastUpdated⟩
    else
      let ld := stored.getD (defaultSnapshot now)
      ⟨200, true, ld.scores, ld.lastUpdated⟩
  | none =>
    let ld := stored.getD (defaultSnapshot now)
    ⟨200, true, ld.scores, ld.lastUpdated⟩

/-! ## Helper lemmas about the simulation engine -/

theorem checkSelfCollision_iff (s : GameState) :
    Snake.checkSelfCollision s = true ↔ s.snake.headD ⟨0, 0⟩ ∈ s.snake.tail := by
  cases hs : s.snake with
  | nil => simp [Snake.checkSelfCollision, hs]
  | cons h t =>
    simp only [Snake.checkSelfCollision, hs, List.any_eq_true, List.headD_cons,
      List.tail_cons, Bool.and_eq_true, beq_iff_eq]
    constructor
    · rintro ⟨seg, hseg, hx, hy⟩
      have : seg = h := by cases seg; cases h; simp_all
      rwa [this] at hseg
    · intro hmem
      exact ⟨h, hmem, rfl, rfl⟩

theorem checkWallCollision_iff (s : GameState) :
    Snake.checkWallCollision s = true ↔
      ((s.snake.headD ⟨0, 0⟩).x < 0 ∨ (s.snake.headD ⟨0, 0⟩).x ≥ GRID_SIZE ∨
       (s.snake.headD ⟨0, 0⟩).y < 0 ∨ (s.snake.headD ⟨0, 0⟩).y ≥ GRID_SIZE) := by
  simp [Snake.checkWallCollision, or_assoc]

theorem move_direction_eq (s : GameState) :
    (Snake.move s).direction = s.nextDirection ∧ (Snake.move s).nextDirection = s.nextDirection := by
  unfold Snake.move
  split <;> exact ⟨rfl, rfl⟩

theorem move_score_isPlaying_eq (s : GameState) :
    (Snake.move s).score = s.score ∧ (Snake.move s).isPlaying = s.isPlaying := by
  unfold Snake.move
  split <;> exact ⟨rfl, rfl⟩

theorem move_length (s : GameState) :
    (Snake.move s).snake.length = s.snake.length + (if s.shouldGrow then 1 else 0) := by
  unfold Snake.move
  by_cases h : s.shouldGrow <;> simp [h, List.length_dropLast]

theorem move_shouldGrow (s : GameState) : (Snake.move s).shouldGrow = false := by
  unfold Snake.move
  by_cases h : s.shouldGrow <;> simp [h]

theorem loop_snake_eq (newFood : Pos) (s : GameState) (hp : s.isPlaying = true) :
    (Game.loop newFood s).snake = (Snake.move s).snake := by
  unfold Game.loop
  rw [hp]
  simp only [Bool.not_true, Bool.false_eq_true, if_false]
  split
  · rfl
  · split <;> rfl

theorem loop_not_playing (newFood : Pos) (s : GameState) (hp : s.isPlaying = false) :
    Game.loop newFood s = s := by
  unfold Game.loop
  rw [hp]
  rfl

theorem loop_direction_eq (newFood : Pos) (s : GameState) (hp : s.isPlaying = true) :
    (Game.loop newFood s).direction = (Snake.move s).direction
    ∧ (Game.loop newFood s).nextDirection = (Snake.move s).nextDirection := by
  unfold Game.loop
  rw [hp]
  simp only [Bool.not_true, Bool.false_eq_true, if_false]
  split
  · exact ⟨rfl, rfl⟩
  · split <;> exact ⟨rfl, rfl⟩

/-- A playing state whose head is on the right edge, still moving right:
the next tick crosses the wall. -/
def wallState : GameState :=
  ⟨[⟨19, 10⟩, ⟨18, 10⟩, ⟨17, 10⟩], ⟨1, 0⟩, ⟨1, 0⟩, ⟨0, 0⟩, 0, true, 200, false,
    some DIFFICULTY_EASY⟩

/-! ## Theorems -/

/-- C4: on any tick from a playing state whose moved head lies outside
`[0, GRID_SIZE)` on either axis or coincides with a non-head segment, the
game transitions to the stopped (game-over) state on that same tick, the
result is exactly `Game.gameOver` of the moved state, and the tick function
never fires again from that state: every further tick is the identity. -/
theorem loop_collision_is_terminal (s : GameState) (newFood : Pos)
    (hp : s.isPlaying = true)
    (h : ((Snake.move s).snake.headD ⟨0, 0⟩).x < 0
       ∨ ((Snake.move s).snake.headD ⟨0, 0⟩).x ≥ GRID_SIZE
       ∨ ((Snake.move s).snake.headD ⟨0, 0⟩).y < 0
       ∨ ((Snake.move s).snake.headD ⟨0, 0⟩).y ≥ GRID_SIZE
       ∨ (Snake.move s).snake.headD ⟨0, 0⟩ ∈ (Snake.move s).snake.tail) :
    (Game.loop newFood s).isPlaying = false
    ∧ Game.loop newFood s = Game.gameOver (Snake.move s)
    ∧ ∀ newFood2, Game.loop newFood2 (Game.loop newFood s) = Game.loop newFood s := by
  have hcol : (Snake.checkWallCollision (Snake.move s)
      || Snake.checkSelfCollision (Snake.move s)) = true := by
    rw [Bool.or_eq_true, checkWallCollision_iff, checkSelfCollision_iff]
    tauto
  have hloop : Game.loop newFood s = Game.gameOver (Snake.move s) := by
    unfold Game.loop
    rw [hp]
    simp only [Bool.not_true, Bool.false_eq_true, if_false]
    rw [if_pos hcol]
  refine ⟨by rw [hloop]; rfl, hloop, fun newFood2 => ?_⟩
  rw [hloop]
  exact loop_not_playing newFood2 _ rfl

/-- C4 witness: a playing state whose snake is about to cross the right
wall stops on that tick and stays stopped. -/
theorem loop_collision_is_terminal_witness :
    (Game.loop ⟨0, 0⟩ wallState).isPlaying = false
    ∧ Game.loop ⟨0, 0⟩ wallState = Game.gameOver (Snake.move wallState)
    ∧ ∀ newFood2, Game.loop newFood2 (Game.loop ⟨0, 0⟩ wallState) = Game.loop ⟨0, 0⟩ wallState :=
  loop_collision_is_terminal wallState ⟨0, 0⟩ rfl (by decide)

/-! ### C5: no instant reversal -/

/-- The four direction vectors game.js ever requests (keyboard map and
swipe handler). -/
def isUnitVec (p : Pos) : Prop :=
  p = ⟨1, 0⟩ ∨ p = ⟨-1, 0⟩ ∨ p = ⟨0, 1⟩ ∨ p = ⟨0, -1⟩

/-- The exact negation of a direction vector. -/
def negVec (p : Pos) : Pos :=
  ⟨-p.x, -p.y⟩

/-- The no-instant-reversal invariant of the spec data model: both
direction fields are unit vectors and the buffered direction is never the
exact negation of the committed one. -/
def DirInvariant (s : GameState) : Prop :=
  isUnitVec s.direction ∧ isUnitVec s.nextDirection ∧ s.nextDirection ≠ negVec s.direction

theorem dirInvariant_congr {a b : GameState} (h1 : b.direction = a.direction)
    (h2 : b.nextDirection = a.nextDirection) (h : DirInvariant a) : DirInvariant b := by
  unfold DirInvariant at *
  rw [h1, h2]
  exact h

/-- C5: requesting the exact negation of the committed direction leaves the
state unchanged (for any committed direction with a nonzero component, in
particular any unit vector) and raises no error; the invariant that
`nextDirection` is never the exact negation of `direction` is preserved by
`Input.setDirection` for every unit-vector request and by every tick,
including the commit of the buffered direction performed by each tick. -/
theorem setDirection_never_reverses :
    (∀ s : GameState, (s.direction.x ≠ 0 ∨ s.direction.y ≠ 0) →
        Input.setDirection (negVec s.direction) s = s)
    ∧ (∀ (s : GameState) (d : Pos), DirInvariant s → isUnitVec d →
        DirInvariant (Input.setDirection d s))
    ∧ (∀ (s : GameState) (newFood : Pos), DirInvariant s →
        DirInvariant (Game.loop newFood s)) := by
  refine ⟨?_, ?_, ?_⟩
  · intro s h
    have hop : ((negVec s.direction).x == -s.direction.x && (negVec s.direction).x != 0
        || ((negVec s.direction).y == -s.direction.y && (negVec s.direction).y != 0)) = true := by
      rcases h with h | h <;> simp [negVec, h]
    unfold Input.setDirection
    rw [if_pos hop]
  · rintro s d ⟨hdir, hnext, hne⟩ hd
    by_cases hop : ((d.x == -s.direction.x && d.x != 0)
        || (d.y == -s.direction.y && d.y != 0)) = true
    · have : Input.setDirection d s = s := by
        unfold Input.setDirection
        rw [if_pos hop]
      rw [this]
      exact ⟨hdir, hnext, hne⟩
    · have hset : Input.setDirection d s = { s with nextDirection := d } := by
        unfold Input.setDirection
        rw [if_neg hop]
      rw [hset]
      refine ⟨hdir, hd, fun heq => hop ?_⟩
      have heq2 : d = negVec s.direction := heq
      rw [heq2]
      rcases hdir with h1 | h1 | h1 | h1 <;> rw [h1] <;> rfl
  · rintro s newFood ⟨hdir, hnext, hne⟩
    by_cases hp : s.isPlaying = true
    · have hmd := move_direction_eq s
      have hmove : DirInvariant (Snake.move s) := by
        unfold DirInvariant
        rw [hmd.1, hmd.2]
        refine ⟨hnext, hnext, ?_⟩
        rcases hnext with h | h | h | h <;> rw [h] <;> decide
      have hld := loop_direction_eq newFood s hp
      exact dirInvariant_congr hld.1 hld.2 hmove
    · rw [loop_not_playing newFood s (by simpa using hp)]
      exact ⟨hdir, hnext, hne⟩

/-- A playing state with committed direction right and buffered direction
down, used to witness the direction theorems. -/
def dirState : GameState :=
  ⟨[⟨5, 5⟩, ⟨4, 5⟩, ⟨3, 5⟩], ⟨1, 0⟩, ⟨0, 1⟩, ⟨0, 0⟩, 0, true, 200, false, some DIFFICULTY_EASY⟩

/-- C5 witness: reversal request ignored, invariant preserved by a lateral
request and by a tick, on a concrete state. -/
theorem setDirection_never_reverses_witness :
    Input.setDirection (negVec dirState.direction) dirState = dirState
    ∧ DirInvariant (Input.setDirection ⟨0, 1⟩ dirState)
    ∧ DirInvariant (Game.loop ⟨0, 0⟩ dirState) :=
  ⟨setDirection_never_reverses.1 dirState (Or.inl (by decide)),
   setDirection_never_reverses.2.1 dirState ⟨0, 1⟩
     ⟨Or.inl rfl, Or.inr (Or.inr (Or.inl rfl)), by decide⟩
     (Or.inr (Or.inr (Or.inl rfl))),
   setDirection_never_reverses.2.2 dirState ⟨0, 0⟩
     ⟨Or.inl rfl, Or.inr (Or.inr (Or.inl rfl)), by decide⟩⟩

/-! ### C3: segment count and score across ticks -/

/-- A playing state whose next tick eats the food directly ahead of the
head. -/
def eatState : GameState :=
  ⟨[⟨5, 5⟩, ⟨4, 5⟩, ⟨3, 5⟩], ⟨1, 0⟩, ⟨1, 0⟩, ⟨6, 5⟩, 0, true, 200, false, some DIFFICULTY_EASY⟩

/-- The state one tick after `eatState`: growth is pending and the
relocated food (oracle `⟨0, 0⟩`) is far from the head. -/
def afterEatState : GameState :=
  Game.loop ⟨0, 0⟩ eatState

/-- C3 counterexample: the tick after an eating tick does not land on food,
yet the segment count grows from 3 to 4 on it — so a non-eating tick can
change the segment count (growth lags the capture by one tick), and it is
the following tick, not the eating one, on which the count is unchanged. -/
theorem nonEating_tick_changes_length :
    Food.checkCollision (Snake.move eatState) = true
    ∧ afterEatState.isPlaying = true
    ∧ Food.checkCollision (Snake.move afterEatState) = false
    ∧ afterEatState.snake.length = 3
    ∧ (Game.loop ⟨0, 0⟩ afterEatState).snake.length = 4 := by
  decide

/-- C3 amended: on every tick the segment count changes by one exactly when
growth is pending (the flag set by the previous eating tick) and is
otherwise unchanged; an eating tick that does not collide adds exactly the
per-food value to the score, sets the growth flag, and the immediately
following tick increases the segment count by exactly one; a non-eating
tick never changes the score. -/
theorem loop_length_score (s : GameState) (newFood : Pos) (hp : s.isPlaying = true) :
    (Game.loop newFood s).snake.length = s.snake.length + (if s.shouldGrow then 1 else 0)
    ∧ (Food.checkCollision (Snake.move s) = true →
        Snake.checkWallCollision (Snake.move s) = false →
        Snake.checkSelfCollision (Snake.move s) = false →
          (Game.loop newFood s).score = s.score + POINTS_PER_FOOD
          ∧ (Game.loop newFood s).shouldGrow = true
          ∧ (Game.loop newFood s).isPlaying = true
          ∧ ∀ newFood2, (Game.loop newFood2 (Game.loop newFood s)).snake.length
              = (Game.loop newFood s).snake.length + 1)
    ∧ (Food.checkCollision (Snake.move s) = false →
        (Game.loop newFood s).score = s.score) := by
  have hlen : (Game.loop newFood s).snake.length
      = s.snake.length + (if s.shouldGrow then 1 else 0) := by
    rw [loop_snake_eq newFood s hp]
    exact move_length s
  refine ⟨hlen, ?_, ?_⟩
  · intro heat hw hs'
    have hloopeq : Game.loop newFood s = { Snake.move s with
        shouldGrow := true,
        score := (Snake.move s).score + POINTS_PER_FOOD,
        food := newFood,
        speed := max MIN_SPEED ((Snake.move s).speed
          - ((Snake.move s).difficulty.getD DIFFICULTY_MEDIUM).speedIncrement) } := by
      unfold Game.loop
      rw [hp]
      simp only [Bool.not_true, Bool.false_eq_true, if_false]
      rw [if_neg (by rw [hw, hs']; simp), if_pos heat]
    have hp2 : (Game.loop newFood s).isPlaying = true := by
      rw [hloopeq]
      show (Snake.move s).isPlaying = true
      rw [(move_score_isPlaying_eq s).2]
      exact hp
    refine ⟨?_, by rw [hloopeq], hp2, ?_⟩
    · rw [hloopeq]
      show (Snake.move s).score + POINTS_PER_FOOD = s.score + POINTS_PER_FOOD
      rw [(move_score_isPlaying_eq s).1]
    · intro newFood2
      have hg2 : (Game.loop newFood s).shouldGrow = true := by rw [hloopeq]
      rw [loop_snake_eq newFood2 _ hp2, move_length, hg2]
      simp
  · intro hne
    unfold Game.loop
    rw [hp]
    simp only [Bool.not_true, Bool.false_eq_true, if_false]
    split
    · show (Snake.move s).score = s.score
      exact (move_score_isPlaying_eq s).1
    · rw [if_neg (by simp [hne])]
      exact (move_score_isPlaying_eq s).1

/-- C3 amended, witness: on the concrete eating tick from `eatState` the
count is governed by the (unset) growth flag and the score increases by
10; the following tick adds one segment. -/
theorem loop_length_score_witness :
    (Game.loop ⟨0, 0⟩ eatState).snake.length
      = eatState.snake.length + (if eatState.shouldGrow then 1 else 0)
    ∧ (Game.loop ⟨0, 0⟩ eatState).score = eatState.score + POINTS_PER_FOOD
    ∧ (Game.loop ⟨0, 0⟩ (Game.loop ⟨0, 0⟩ eatState)).snake.length
      = (Game.loop ⟨0, 0⟩ eatState).snake.length + 1 :=
  ⟨(loop_length_score eatState ⟨0, 0⟩ rfl).1,
   ((loop_length_score eatState ⟨0, 0⟩ rfl).2.1 (by decide) (by decide) (by decide)).1,
   ((loop_length_score eatState ⟨0, 0⟩ rfl).2.1 (by decide) (by decide) (by decide)).2.2.2 ⟨0, 0⟩⟩

/-! ### C8: restart from game over -/

/-- A game-over state: play has stopped after a run (nonzero score and a
grown snake), the selected difficulty is retained. -/
def overState : GameState :=
  ⟨[⟨12, 10⟩, ⟨11, 10⟩, ⟨10, 10⟩, ⟨9, 10⟩], ⟨1, 0⟩, ⟨1, 0⟩, ⟨2, 3⟩, 10, false, 197, false,
    some DIFFICULTY_EASY⟩

/-- C8 counterexample: from a game-over state, the single restart command
(the space key) leaves the session with `isPlaying = true` immediately —
the code comment says it starts directly — so GameOver transitions
directly to Running; no intermediate awaiting-start state (which would
have `isPlaying = false`) is entered and no second start command is
needed. -/
theorem pressSpace_goes_directly_to_running :
    overState.isPlaying = false
    ∧ overState.difficulty = some DIFFICULTY_EASY
    ∧ overState.score = 10
    ∧ (Input.pressSpace ⟨0, 0⟩ ⟨0, 0⟩ overState).isPlaying = true
    ∧ (Input.pressSpace ⟨0, 0⟩ ⟨0, 0⟩ overState).score = 0
    ∧ (Input.pressSpace ⟨0, 0⟩ ⟨0, 0⟩ overState).difficulty = some DIFFICULTY_EASY := by
  decide

theorem move_difficulty_eq (s : GameState) : (Snake.move s).difficulty = s.difficulty := by
  unfold Snake.move
  split <;> rfl

theorem loop_difficulty_eq (newFood : Pos) (s : GameState) :
    (Game.loop newFood s).difficulty = s.difficulty := by
  by_cases hp : s.isPlaying = true
  · unfold Game.loop
    rw [hp]
    simp only [Bool.not_true, Bool.false_eq_true, if_false]
    split
    · exact move_difficulty_eq s
    · split
      · exact move_difficulty_eq s
      · exact move_difficulty_eq s
  · rw [loop_not_playing newFood s (by simpa using hp)]

/-- C8 amended: from any stopped state with a retained difficulty (the
game-over screen), the restart command rebuilds the baseline — score zero,
fresh centered snake, speed reset to the initial speed of the difficulty,
difficulty retained — and transitions directly to Running (`isPlaying =
true`, the first tick running synchronously); no intermediate
awaiting-start state exists between game over and running. -/
theorem pressSpace_restart (s : GameState) (f0 newFood : Pos) (d : DifficultySettings)
    (hp : s.isPlaying = false) (hd : s.difficulty = some d) :
    Input.pressSpace f0 newFood s = Game.loop newFood (Game.startState f0 s)
    ∧ (Game.startState f0 s).score = 0
    ∧ (Game.startState f0 s).isPlaying = true
    ∧ (Game.startState f0 s).difficulty = some d
    ∧ (Game.startState f0 s).speed = d.initialSpeed
    ∧ (Game.startState f0 s).snake = [⟨10, 10⟩, ⟨9, 10⟩, ⟨8, 10⟩]
    ∧ (Input.pressSpace f0 newFood s).isPlaying = true
    ∧ (Input.pressSpace f0 newFood s).difficulty = some d := by
  have hps : Input.pressSpace f0 newFood s = Game.loop newFood (Game.startState f0 s) := by
    unfold Input.pressSpace Game.start
    rw [hp, hd]
    simp
  have hbp : (Game.startState f0 s).isPlaying = true := rfl
  have hsnake : (Game.startState f0 s).snake = [⟨10, 10⟩, ⟨9, 10⟩, ⟨8, 10⟩] := rfl
  have hw : Snake.checkWallCollision (Snake.move (Game.startState f0 s)) = false := rfl
  have hs' : Snake.checkSelfCollision (Snake.move (Game.startState f0 s)) = false := rfl
  have hlp : (Game.loop newFood (Game.startState f0 s)).isPlaying = true := by
    unfold Game.loop
    rw [hbp]
    simp only [Bool.not_true, Bool.false_eq_true, if_false]
    rw [if_neg (by rw [hw, hs']; simp)]
    split
    · exact (move_score_isPlaying_eq _).2
    · exact (move_score_isPlaying_eq _).2
  have hbd : (Game.startState f0 s).difficulty = some d := hd
  refine ⟨hps, rfl, hbp, hbd, ?_, hsnake, by rw [hps]; exact hlp, ?_⟩
  · show (s.difficulty.getD DIFFICULTY_MEDIUM).initialSpeed = d.initialSpeed
    rw [hd]
    rfl
  · rw [hps, loop_difficulty_eq]
    exact hbd

/-- C8 amended, witness: restarting from the concrete game-over state
`overState` resets the counters and goes straight to Running. -/
theorem pressSpace_restart_witness :
    Input.pressSpace ⟨0, 0⟩ ⟨0, 0⟩ overState = Game.loop ⟨0, 0⟩ (Game.startState ⟨0, 0⟩ overState)
    ∧ (Game.startState ⟨0, 0⟩ overState).score = 0
    ∧ (Game.startState ⟨0, 0⟩ overState).isPlaying = true
    ∧ (Game.startState ⟨0, 0⟩ overState).difficulty = some DIFFICULTY_EASY
    ∧ (Game.startState ⟨0, 0⟩ overState).speed = DIFFICULTY_EASY.initialSpeed
    ∧ (Game.startState ⟨0, 0⟩ overState).snake = [⟨10, 10⟩, ⟨9, 10⟩, ⟨8, 10⟩]
    ∧ (Input.pressSpace ⟨0, 0⟩ ⟨0, 0⟩ overState).isPlaying = true
    ∧ (Input.pressSpace ⟨0, 0⟩ ⟨0, 0⟩ overState).difficulty = some DIFFICULTY_EASY :=
  pressSpace_restart overState ⟨0, 0⟩ ⟨0, 0⟩ DIFFICULTY_EASY rfl rfl

/-! ### C6: rate limiter -/

/-- Iterate `checkRateLimit` over a sequence of request times from one
source address, collecting the admission verdicts in order. -/
def runRateLimit (ip : String) : List Int → RateLimitMap → List Bool × RateLimitMap
  | [], m => ([], m)
  | t :: ts, m =>
    let r := checkRateLimit t ip m
    let rest := runRateLimit ip ts r.2
    (r.1 :: rest.1, rest.2)

theorem checkRateLimit_fresh (now : Int) (ip : String) (m : RateLimitMap)
    (hm : m ip = none) :
    checkRateLimit now ip m = (true, fun k => if k = ip then some ⟨now, 1⟩ else m k) := by
  unfold checkRateLimit
  rw [hm]

theorem checkRateLimit_increment (now : Int) (ip : String) (m : RateLimitMap)
    (w : Int) (c : Nat) (hm : m ip = some ⟨w, c⟩) (hw : now - w ≤ RATE_LIMIT_WINDOW)
    (hc : c < RATE_LIMIT_MAX) :
    checkRateLimit now ip m = (true, fun k => if k = ip then some ⟨w, c + 1⟩ else m k) := by
  unfold checkRateLimit
  rw [hm]
  dsimp only
  rw [if_neg (not_lt.mpr hw), if_neg (not_le.mpr hc)]

theorem checkRateLimit_deny (now : Int) (ip : String) (m : RateLimitMap)
    (w : Int) (c : Nat) (hm : m ip = some ⟨w, c⟩) (hw : now - w ≤ RATE_LIMIT_WINDOW)
    (hc : RATE_LIMIT_MAX ≤ c) :
    checkRateLimit now ip m = (false, m) := by
  unfold checkRateLimit
  rw [hm]
  dsimp only
  rw [if_neg (not_lt.mpr hw), if_pos hc]

/-- C6: starting from a map that has never seen the address, any 6 requests
whose times all fall within one `RATE_LIMIT_WINDOW` of the first are
admitted for the first 5 and denied for the 6th; and from any state whose
window for the address has aged beyond the window length, the next request
opens a fresh window (count 1 at the new time) and is admitted. -/
theorem rateLimit_five_per_window (ip : String) (m0 : RateLimitMap)
    (t0 t1 t2 t3 t4 t5 : Int) (hm : m0 ip = none)
    (h1 : t1 - t0 ≤ RATE_LIMIT_WINDOW) (h2 : t2 - t0 ≤ RATE_LIMIT_WINDOW)
    (h3 : t3 - t0 ≤ RATE_LIMIT_WINDOW) (h4 : t4 - t0 ≤ RATE_LIMIT_WINDOW)
    (h5 : t5 - t0 ≤ RATE_LIMIT_WINDOW) :
    (runRateLimit ip [t0, t1, t2, t3, t4, t5] m0).1
      = [true, true, true, true, true, false]
    ∧ ∀ (now2 : Int) (m : RateLimitMap) (en : RateLimitEntry),
        m ip = some en → RATE_LIMIT_WINDOW < now2 - en.windowStart →
        (checkRateLimit now2 ip m).1 = true
        ∧ (checkRateLimit now2 ip m).2 ip = some ⟨now2, 1⟩ := by
  constructor
  · have e0 := checkRateLimit_fresh t0 ip m0 hm
    have l0 : (checkRateLimit t0 ip m0).2 ip = some ⟨t0, 1⟩ := by rw [e0]; simp
    have e1 := checkRateLimit_increment t1 ip _ t0 1 l0 h1 (by decide)
    have l1 : (checkRateLimit t1 ip (checkRateLimit t0 ip m0).2).2 ip = some ⟨t0, 2⟩ := by
      rw [e1]; simp
    have e2 := checkRateLimit_increment t2 ip _ t0 2 l1 h2 (by decide)
    have l2 : (checkRateLimit t2 ip (checkRateLimit t1 ip
        (checkRateLimit t0 ip m0).2).2).2 ip = some ⟨t0, 3⟩ := by
      rw [e2]; simp
    have e3 := checkRateLimit_increment t3 ip _ t0 3 l2 h3 (by decide)
    have l3 : (checkRateLimit t3 ip (checkRateLimit t2 ip (checkRateLimit t1 ip
        (checkRateLimit t0 ip m0).2).2).2).2 ip = some ⟨t0, 4⟩ := by
      rw [e3]; simp
    have e4 := checkRateLimit_increment t4 ip _ t0 4 l3 h4 (by decide)
    have l4 : (checkRateLimit t4 ip (checkRateLimit t3 ip (checkRateLimit t2 ip
        (checkRateLimit t1 ip (checkRateLimit t0 ip m0).2).2).2).2).2 ip
        = some ⟨t0, 5⟩ := by
      rw [e4]; simp
    have e5 := checkRateLimit_deny t5 ip _ t0 5 l4 h5 (by decide)
    have b0 : (checkRateLimit t0 ip m0).1 = true := by rw [e0]
    have b1 : (checkRateLimit t1 ip (checkRateLimit t0 ip m0).2).1 = true := by rw [e1]
    have b2 : (checkRateLimit t2 ip (checkRateLimit t1 ip
        (checkRateLimit t0 ip m0).2).2).1 = true := by rw [e2]
    have b3 : (checkRateLimit t3 ip (checkRateLimit t2 ip (checkRateLimit t1 ip
        (checkRateLimit t0 ip m0).2).2).2).1 = true := by rw [e3]
    have b4 : (checkRateLimit t4 ip (checkRateLimit t3 ip (checkRateLimit t2 ip
        (checkRateLimit t1 ip (checkRateLimit t0 ip m0).2).2).2).2).1 = true := by rw [e4]
    have b5 : (checkRateLimit t5 ip (checkRateLimit t4 ip (checkRateLimit t3 ip
        (checkRateLimit t2 ip (checkRateLimit t1 ip
          (checkRateLimit t0 ip m0).2).2).2).2).2).1 = false := by rw [e5]
    simp only [runRateLimit]
    rw [b0, b1, b2, b3, b4, b5]
  · intro now2 m en hm2 hage
    have hfresh2 : checkRateLimit now2 ip m
        = (true, fun k => if k = ip then some ⟨now2, 1⟩ else m k) := by
      unfold checkRateLimit
      rw [hm2]
      dsimp only
      rw [if_pos hage]
    rw [hfresh2]
    simp

/-- C6 witness: six immediate requests from a fresh address, then a request
after the window has expired. -/
theorem rateLimit_five_per_window_witness :
    (runRateLimit "1.2.3.4" [0, 0, 0, 0, 0, 0] (fun _ => none)).1
      = [true, true, true, true, true, false]
    ∧ (checkRateLimit 60001 "1.2.3.4"
        (fun k => if k = "1.2.3.4" then some ⟨0, 5⟩ else none)).1 = true :=
  ⟨(rateLimit_five_per_window "1.2.3.4" (fun _ => none) 0 0 0 0 0 0 rfl
      (by decide) (by decide) (by decide) (by decide) (by decide)).1,
   ((rateLimit_five_per_window "1.2.3.4" (fun _ => none) 0 0 0 0 0 0 rfl
      (by decide) (by decide) (by decide) (by decide) (by decide)).2 60001
      (fun k => if k = "1.2.3.4" then some ⟨0, 5⟩ else none) ⟨0, 5⟩ (by simp)
      (by decide)).1⟩

/-! ### C7: food placement -/

/-- C7 counterexample: with the snake occupying only 3 of the 400 cells, a
random stream that keeps proposing an occupied cell makes the retry loop of
`Food.generate` run forever — the generation does NOT terminate for every
sequence of values from the random source. -/
theorem generate_not_terminating_on_adversarial_stream :
    ([(⟨10, 10⟩ : Pos), ⟨9, 10⟩, ⟨8, 10⟩].length ≤ 20 * 20 - 1)
    ∧ ¬ Food.generateTerminates (fun _ => (10, 10)) [⟨10, 10⟩, ⟨9, 10⟩, ⟨8, 10⟩] := by
  refine ⟨by decide, ?_⟩
  rintro ⟨fuel, hfuel⟩
  suffices h : ∀ (n i : Nat),
      Food.generateAux (fun _ => (10, 10)) [⟨10, 10⟩, ⟨9, 10⟩, ⟨8, 10⟩] n i = none by
    rw [Food.generate, h fuel 0] at hfuel
    exact Bool.noConfusion hfuel
  intro n
  induction n with
  | zero => intro i; rfl
  | succ k ih =>
    intro i
    rw [Food.generateAux]
    exact ih (i + 1)

/-- C7 amended: whenever the generation loop returns a cell, that cell is
not occupied by any snake segment (partial correctness holds for every
snake configuration and every random stream); and the loop does terminate
for every stream that eventually proposes an unoccupied cell — which exists
whenever the snake occupies at most grid capacity minus one cells — but
not, as the claim states, for arbitrary streams. -/
theorem generate_correct (rng : Nat → Nat × Nat) (snake : List Pos) :
    (∀ (fuel : Nat) (c : Pos), Food.generate rng snake fuel = some c →
        ∀ seg ∈ snake, ¬ (seg.x = c.x ∧ seg.y = c.y))
    ∧ (∀ i : Nat, (∀ seg ∈ snake,
          ¬ (seg.x = (Food.randCell rng i).x ∧ seg.y = (Food.randCell rng i).y)) →
        Food.generateTerminates rng snake) := by
  constructor
  · have haux : ∀ (fuel i : Nat) (c : Pos), Food.generateAux rng snake fuel i = some c →
        ∀ seg ∈ snake, ¬ (seg.x = c.x ∧ seg.y = c.y) := by
      intro fuel
      induction fuel with
      | zero => intro i c hc; exact Option.noConfusion hc
      | succ k ih =>
        intro i c hc seg hseg
        rw [Food.generateAux] at hc
        split at hc
        · exact ih (i + 1) c hc seg hseg
        · rename_i hnone
          obtain rfl : Food.randCell rng i = c := Option.some.inj hc
          intro hcontra
          exact hnone (by
            rw [List.any_eq_true]
            exact ⟨seg, hseg, by simp [hcontra.1, hcontra.2]⟩)
    exact fun fuel c hc => haux fuel 0 c hc
  · intro i hfree
    have key : ∀ (fuel start : Nat), (∃ j, start ≤ j ∧ j < start + fuel ∧
        (snake.any fun seg =>
          seg.x == (Food.randCell rng j).x && seg.y == (Food.randCell rng j).y) = false) →
        (Food.generateAux rng snake fuel start).isSome = true := by
      intro fuel
      induction fuel with
      | zero =>
        rintro start ⟨j, hj1, hj2, _⟩
        exact ((by omega : False)).elim
      | succ k ih =>
        rintro start ⟨j, hj1, hj2, hfr⟩
        rw [Food.generateAux]
        split
        · rename_i hocc
          apply ih (start + 1)
          refine ⟨j, ?_, by omega, hfr⟩
          rcases Nat.eq_or_lt_of_le hj1 with heq | hlt
          · rw [← heq] at hfr
            rw [hfr] at hocc
            exact Bool.noConfusion hocc
          · omega
        · rfl
    have hb : (snake.any fun seg =>
        seg.x == (Food.randCell rng i).x && seg.y == (Food.randCell rng i).y) = false := by
      by_contra hb
      rw [Bool.not_eq_false, List.any_eq_true] at hb
      obtain ⟨seg, hseg, hseg2⟩ := hb
      rw [Bool.and_eq_true, beq_iff_eq, beq_iff_eq] at hseg2
      exact hfree seg hseg hseg2
    exact ⟨i + 1, key (i + 1) 0 ⟨i, Nat.zero_le i, by omega, hb⟩⟩

/-- C7 amended, witness: on a concrete snake and a stream whose first draw
is free, the returned cell avoids the snake and the loop terminates. -/
theorem generate_correct_witness :
    (∀ seg ∈ [(⟨10, 10⟩ : Pos), ⟨9, 10⟩, ⟨8, 10⟩],
        ¬ (seg.x = (⟨0, 0⟩ : Pos).x ∧ seg.y = (⟨0, 0⟩ : Pos).y))
    ∧ Food.generateTerminates (fun _ => (0, 0)) [⟨10, 10⟩, ⟨9, 10⟩, ⟨8, 10⟩] :=
  ⟨(generate_correct (fun _ => (0, 0)) [⟨10, 10⟩, ⟨9, 10⟩, ⟨8, 10⟩]).1 1 ⟨0, 0⟩ rfl,
   (generate_correct (fun _ => (0, 0)) [⟨10, 10⟩, ⟨9, 10⟩, ⟨8, 10⟩]).2 0 (by decide)⟩

/-- A concrete submission whose score, 4010, exceeds the theoretical
maximum of grid cell count times point value (400 × 10 = 4000), yet passes
every check of `validateScore`. -/
def overMaxSubmission : JSSubmission :=
  ⟨some 4010, some 1000000000000, some ⟨some "EASY", some 404, some 200500⟩⟩

/-- C2 counterexample: `validateScore` accepts a fresh submission with score
4010, which strictly exceeds the theoretical maximum
`GRID_SIZE * GRID_SIZE * POINTS_PER_FOOD = 4000`; the range check in the code
only rejects scores above 10000. -/
theorem validateScore_accepts_score_above_theoretical_max :
    overMaxSubmission.score = some 4010
    ∧ GRID_SIZE * GRID_SIZE * POINTS_PER_FOOD < 4010
    ∧ validateScore 1000000000000 overMaxSubmission = Verdict.valid := by
  refine ⟨rfl, by decide, ?_⟩
  decide

/-- C2 amended: every submission whose score exceeds the implemented bound
10000 is rejected by `validateScore` (the implemented range check is
`score < 0 || score > 10000`, not the theoretical maximum 4000). -/
theorem validateScore_rejects_score_above_10000 (now : Int) (data : JSSubmission)
    (score : Int) (hs : data.score = some score) (h : 10000 < score) :
    validateScore now data ≠ Verdict.valid := by
  unfold validateScore
  rw [hs]
  by_cases h10 : score % 10 ≠ 0
  · simp [h10]
  · have hr : score < 0 ∨ score > 10000 := Or.inr h
    simp [h10, hr]

/-- C2 amended, witness: a submission with score 10010 is rejected. -/
theorem validateScore_rejects_score_above_10000_witness :
    validateScore 0 ⟨some 10010, none, none⟩ ≠ Verdict.valid :=
  validateScore_rejects_score_above_10000 0 ⟨some 10010, none, none⟩ 10010 rfl (by decide)

/-- C9: the validator is total by construction (`validateScore` is a Lean
function into `Verdict`, mirroring that the JS function returns on every
object input without throwing), and any submission in which `score`,
`timestamp`, `snakeLength` or `gameTime` is not a number, or in which
`gameData` is absent or not an object, is rejected, never accepted. -/
theorem validateScore_rejects_ill_typed (now : Int) (data : JSSubmission)
    (h : data.score = none ∨ data.timestamp = none ∨ data.gameData = none ∨
         ∃ gd, data.gameData = some gd ∧ (gd.snakeLength = none ∨ gd.gameTime = none)) :
    validateScore now data ≠ Verdict.valid := by
  intro hv
  rcases data with ⟨ds, dt, dg⟩
  rcases ds with _ | sc
  · simp [validateScore] at hv
  rcases dt with _ | ts
  · simp only [validateScore] at hv
    repeat' split at hv
    all_goals exact Verdict.noConfusion hv
  rcases dg with _ | gd
  · simp only [validateScore] at hv
    repeat' split at hv
    all_goals exact Verdict.noConfusion hv
  rcases gd with ⟨gdd, gsl, ggt⟩
  rcases h with h | h | h | ⟨gd2, hgd2, hf⟩
  · exact Option.noConfusion h
  · exact Option.noConfusion h
  · exact Option.noConfusion h
  obtain rfl : gd2 = ⟨gdd, gsl, ggt⟩ := (Option.some.inj hgd2).symm
  rcases hf with hf | hf <;> subst hf <;>
  · simp only [validateScore] at hv
    repeat' split at hv
    all_goals exact Verdict.noConfusion hv

/-- C9 witness: a submission whose `snakeLength` is not a number is
rejected even though every other field is plausible. -/
theorem validateScore_rejects_ill_typed_witness :
    validateScore 0 ⟨some 120, some 0, some ⟨some "EASY", none, some 7000⟩⟩ ≠ Verdict.valid :=
  validateScore_rejects_ill_typed 0 ⟨some 120, some 0, some ⟨some "EASY", none, some 7000⟩⟩
    (Or.inr (Or.inr (Or.inr ⟨⟨some "EASY", none, some 7000⟩, rfl, Or.inl rfl⟩)))

/-! ### C1: insertion, ordering and ranking in the submit-score handler -/

theorem entryLE_trans (a b c : Entry) (h1 : entryLE a b = true) (h2 : entryLE b c = true) :
    entryLE a c = true := by
  unfold entryLE at *
  simp only [Bool.or_eq_true, Bool.and_eq_true, decide_eq_true_eq, beq_iff_eq] at *
  omega

theorem entryLE_total (a b : Entry) : (entryLE a b || entryLE b a) = true := by
  unfold entryLE
  simp only [Bool.or_eq_true, Bool.and_eq_true, decide_eq_true_eq, beq_iff_eq]
  omega

/-- C1: for every validated submission (any fresh-id entry `e`) against any
stored snapshot of at most 20 entries that is sorted by the leaderboard
order, the ranking core of the handler produces a stored list that is sorted by score
descending then timestamp ascending (in particular, of two stored entries
with equal score the one with the earlier timestamp ranks first), has at
most 20 entries, and the returned rank is the 1-based
position of the inserted entry in the stored list; the rank is `none` exactly when the entry was
truncated away, in which case the snapshot already held 20 entries and the
stored list is exactly the previous 20 entries, unchanged. -/
theorem submitScore_ranks (scores : List Entry) (e : Entry)
    (hsort : scores.Pairwise (fun a b => entryLE a b = true))
    (hlen : scores.length ≤ 20)
    (hfresh : ∀ x ∈ scores, x.id ≠ e.id) :
    ((submitScoreCore scores e).1.Pairwise (fun a b => entryLE a b = true))
    ∧ (submitScoreCore scores e).1.length ≤ 20
    ∧ (∀ (i j : Nat) (hi : i < (submitScoreCore scores e).1.length)
          (hj : j < (submitScoreCore scores e).1.length), i < j →
        ((submitScoreCore scores e).1.get ⟨i, hi⟩).score
          = ((submitScoreCore scores e).1.get ⟨j, hj⟩).score →
        ((submitScoreCore scores e).1.get ⟨i, hi⟩).timestamp
          ≤ ((submitScoreCore scores e).1.get ⟨j, hj⟩).timestamp)
    ∧ (∀ k, (submitScoreCore scores e).2 = some k →
        1 ≤ k ∧ k ≤ (submitScoreCore scores e).1.length
        ∧ (submitScoreCore scores e).1[k - 1]? = some e)
    ∧ ((submitScoreCore scores e).2 = none →
        e ∉ (submitScoreCore scores e).1
        ∧ scores.length = 20 ∧ (submitScoreCore scores e).1 = scores) := by
  set L := (scores ++ [e]).mergeSort entryLE with hL
  set T := L.take 20 with hT
  have hcore1 : (submitScoreCore scores e).1 = T := rfl
  have hcore2 : (submitScoreCore scores e).2
      = if T.findIdx (fun x => x.id == e.id) < T.length
        then some (T.findIdx (fun x => x.id == e.id) + 1) else none := rfl
  have hsorted : L.Pairwise (fun a b => entryLE a b = true) :=
    List.sorted_mergeSort entryLE_trans entryLE_total (scores ++ [e])
  have hperm : L.Perm (scores ++ [e]) := List.mergeSort_perm (scores ++ [e]) entryLE
  have htopsub : T.Sublist L := List.take_sublist 20 L
  have htop_sorted : T.Pairwise (fun a b => entryLE a b = true) :=
    List.Pairwise.sublist htopsub hsorted
  have hPair : (submitScoreCore scores e).1.Pairwise (fun a b => entryLE a b = true) :=
    htop_sorted
  have hLlen : L.length = scores.length + 1 := by
    rw [hL, List.length_mergeSort, List.length_append]
    rfl
  have hTlen : (submitScoreCore scores e).1.length ≤ 20 := by
    rw [hcore1, hT, List.length_take]
    exact min_le_left _ _
  have hmemT_cases : ∀ x ∈ T, x ∈ scores ∨ x = e := by
    intro x hx
    have hxL : x ∈ L := htopsub.subset hx
    have : x ∈ scores ++ [e] := hperm.mem_iff.mp hxL
    rcases List.mem_append.mp this with h | h
    · exact Or.inl h
    · exact Or.inr (List.mem_singleton.mp h)
  refine ⟨hPair, hTlen, ?_, ?_, ?_⟩
  · intro i j hi hj hij hscore
    have h := List.pairwise_iff_get.mp hPair ⟨i, hi⟩ ⟨j, hj⟩ hij
    unfold entryLE at h
    simp only [Bool.or_eq_true, Bool.and_eq_true, decide_eq_true_eq, beq_iff_eq] at h
    omega
  · intro k hk
    by_cases hidx : T.findIdx (fun x => x.id == e.id) < T.length
    · rw [hcore2, if_pos hidx] at hk
      obtain rfl : k = T.findIdx (fun x => x.id == e.id) + 1 := (Option.some.inj hk).symm
      have hpT : (fun x => x.id == e.id) (T.get ⟨T.findIdx (fun x => x.id == e.id), hidx⟩)
          = true := @List.findIdx_getElem Entry (fun x => x.id == e.id) T hidx
      have hgete : T.get ⟨T.findIdx (fun x => x.id == e.id), hidx⟩ = e := by
        have hm := List.get_mem T (T.findIdx (fun x => x.id == e.id)) hidx
        rcases hmemT_cases _ hm with h | h
        · exact absurd (beq_iff_eq.mp hpT) (hfresh _ h)
        · exact h
      refine ⟨Nat.succ_le_succ (Nat.zero_le _), hidx, ?_⟩
      rw [hcore1]
      rw [Nat.add_sub_cancel (T.findIdx (fun x => x.id == e.id)) 1]
      rw [List.getElem?_eq_getElem hidx]
      exact congrArg some hgete
    · rw [hcore2, if_neg hidx] at hk
      exact Option.noConfusion hk
  · intro hnone
    have hidx : ¬ T.findIdx (fun x => x.id == e.id) < T.length := by
      intro hlt
      rw [hcore2, if_pos hlt] at hnone
      exact Option.noConfusion hnone
    have hNotMem : e ∉ T := by
      intro hmem
      exact hidx (List.findIdx_lt_length.mpr ⟨e, hmem, beq_self_eq_true e.id⟩)
    have heSelf : e ∈ scores ++ [e] := List.mem_append.mpr (Or.inr (List.mem_singleton.mpr rfl))
    have heL : e ∈ L := hperm.mem_iff.mpr heSelf
    have hlen20 : scores.length = 20 := by
      by_contra hne20
      have : T = L := by
        rw [hT]
        exact List.take_of_length_le (by omega)
      exact hNotMem (this ▸ heL)
    have hsplit : T ++ L.drop 20 = L := by
      rw [hT]
      exact List.take_append_drop 20 L
    have hdroplen : (L.drop 20).length = 1 := by
      rw [List.length_drop, hLlen, hlen20]
    have heDrop : e ∈ L.drop 20 := by
      rw [← hsplit] at heL
      rcases List.mem_append.mp heL with h | h
      · exact absurd h hNotMem
      · exact h
    obtain ⟨a, ha⟩ := List.length_eq_one.mp hdroplen
    have hae : a = e := by
      rw [ha] at heDrop
      exact (List.mem_singleton.mp heDrop).symm
    have hLeq : L = T ++ [e] := by
      rw [← hsplit, ha, hae]
    have hTle : ∀ x ∈ T, entryLE x e = true := by
      have hps := hsorted
      rw [hLeq, List.pairwise_append] at hps
      intro x hx
      exact hps.2.2 x hx e (List.mem_singleton.mpr rfl)
    have hTperm : T.Perm scores := by
      have h1 : (T ++ [e]).Perm (scores ++ [e]) := by
        rw [← hLeq]
        exact hperm
      exact (List.perm_append_right_iff [e]).mp h1
    have hsle : ∀ x ∈ scores, entryLE x e = true :=
      fun x hx => hTle x (hTperm.mem_iff.mpr hx)
    have hsortedApp : (scores ++ [e]).Pairwise (fun a b => entryLE a b = true) := by
      rw [List.pairwise_append]
      refine ⟨hsort, List.pairwise_singleton _ _, ?_⟩
      intro x hx b hb
      rw [List.mem_singleton.mp hb]
      exact hsle x hx
    have hms : L = scores ++ [e] := by
      rw [hL]
      exact List.mergeSort_of_sorted hsortedApp
    have hTeq : T = scores := by
      rw [hT, hms, List.take_append_eq_append_take,
        List.take_of_length_le hlen, hlen20]
      simp
    exact ⟨by rw [hcore1]; exact hNotMem, hlen20, by rw [hcore1]; exact hTeq⟩

/-- The first entry ever submitted, used as the C1 witness input. -/
def firstEntry : Entry :=
  ⟨1, 100, "EASY", 13, 60000, 1000⟩

/-- C1 witness: inserting a fresh entry into the empty (trivially sorted)
snapshot keeps the list within 20 entries and every returned rank is the
1-based position of the inserted entry. -/
theorem submitScore_ranks_witness :
    (submitScoreCore [] firstEntry).1.length ≤ 20
    ∧ ∀ k, (submitScoreCore [] firstEntry).2 = some k →
        1 ≤ k ∧ k ≤ (submitScoreCore [] firstEntry).1.length
        ∧ (submitScoreCore [] firstEntry).1[k - 1]? = some firstEntry :=
  ⟨(submitScore_ranks [] firstEntry List.Pairwise.nil (by decide)
      (fun x hx => absurd hx (List.not_mem_nil x))).2.1,
   (submitScore_ranks [] firstEntry List.Pairwise.nil (by decide)
      (fun x hx => absurd hx (List.not_mem_nil x))).2.2.2.1⟩

/-- C10: an absent store record is treated as the empty version-1 snapshot
by both handlers: get-leaderboard answers 200/success with an empty scores
array, and the submit handler inserts into the empty snapshot, giving the
first ever valid submission rank 1. -/
theorem absent_record_defaults_to_empty (now : Int) (e : Entry) :
    getLeaderboard none 0 now none = ⟨200, true, [], now⟩
    ∧ defaultSnapshot now = ⟨1, now, []⟩
    ∧ submitHandlerStore now none e = (⟨1, now, [e]⟩, some 1) := by
  refine ⟨rfl, rfl, ?_⟩
  unfold submitHandlerStore submitScoreCore defaultSnapshot
  have h1 : ([] ++ [e]).mergeSort entryLE = [e] :=
    List.mergeSort_of_sorted (by simp)
  simp [h1, List.findIdx_cons]

end SnakeGame
